import Mathlib

/-!
Shallow embedding of the LokiPool proxy-pool core and SOCKS5 session handler.

Sources embedded:
- `src/src/proxy.rs` (`ProxyStatus`, `ProxyInfo`, `Proxy` and its update methods;
  the core crate re-declares the identical module);
- `src/crates/lokipool-core/src/pool.rs` (`Pool`, `get_available`, `test_all`);
- `src/crates/lokipool-core/src/tester.rs` (`Tester::test_proxy`, `TestResult`);
- `src/crates/lokipool-core/src/proxy_pool.rs` (`ProxyEntry`, `ProxyPool`,
  `load_from_file` dedup phase, `start_health_check` loop body, `get_current_proxy`,
  `next_proxy`);
- `src/src/socks_server.rs` (`SocksServer::handle_connection`).

Machine integers (`u16`, `u32`, `u64`) are modelled as `Nat`: none of the verified
operations can overflow (latencies, ports and counters stay far below the word
size, and the code performs no wrapping arithmetic on them).  Wall-clock values
(`Instant`, `chrono` timestamps) and the float `success_rate` field are omitted:
no verified property reads them.  I/O is modelled by passing the byte streams and
probe outcomes in as explicit parameters.
-/

namespace LokiPool

/-- Status of an upstream proxy entry (`ProxyStatus` in `proxy.rs`). -/
inductive ProxyStatus where
  | Available
  | InUse
  | Failed
  | Untested
  | Unknown
deriving DecidableEq, Repr

/-- Descriptive fields of a proxy (`ProxyInfo` in `proxy.rs`); the timestamp
`last_checked` and the float `success_rate` are omitted (unread here). -/
structure ProxyInfo where
  host : String
  port : Nat
  username : Option String
  password : Option String
  proxy_type : String
  location : Option String
  last_latency : Option Nat
  status : ProxyStatus
deriving DecidableEq, Repr

/-- A pool entry (`Proxy` in `proxy.rs`); `id` is the UUID string used as the
map key, `latency` is a `u64` millisecond count (`u64::MAX` before any test);
the timestamp `last_tested` is omitted. -/
structure Proxy where
  id : String
  info : ProxyInfo
  status : ProxyStatus
  latency : Nat
deriving DecidableEq, Repr

/-- `Proxy::update_status`: sets both the outer and the `info` status. -/
def Proxy.update_status (p : Proxy) (s : ProxyStatus) : Proxy :=
  { p with status := s, info := { p.info with status := s } }

/-- `Proxy::update_latency`: records the measured latency in `info`. -/
def Proxy.update_latency (p : Proxy) (l : Nat) : Proxy :=
  { p with info := { p.info with last_latency := some l } }

/-- `Proxy::update_status_and_latency`: update status, then overwrite `latency`
and `info.last_latency` when a measurement is present. -/
def Proxy.update_status_and_latency (p : Proxy) (s : ProxyStatus) (lat : Option Nat) : Proxy :=
  let p1 := p.update_status s
  match lat with
  | some l => { p1.update_latency l with latency := l }
  | none => p1

/-- Result of one probe (`TestResult` in `tester.rs`); timestamp omitted. -/
structure TestResult where
  proxy_id : String
  success : Bool
  latency : Option Nat
  error : Option String
deriving DecidableEq, Repr

/-- Outcome of a `Tester::test_proxy` call as observed by `Pool::test_all`:
either the returned `TestResult` or the error message of the `Err` branch. -/
inductive TesterOutcome where
  | ok (r : TestResult)
  | err (e : String)
deriving DecidableEq, Repr

/-- Per-proxy configuration record (`ProxyConfig` in `config.rs`). -/
structure ProxyConfig where
  host : String
  port : Nat
  username : Option String
  password : Option String
  location : Option String
  proxy_type : String
deriving DecidableEq, Repr

/-- The `ProxyConfig` value that `Pool::test_all` rebuilds from a proxy's info. -/
def proxy_config_of (p : Proxy) : ProxyConfig :=
  { host := p.info.host, port := p.info.port, username := p.info.username,
    password := p.info.password, location := p.info.location,
    proxy_type := p.info.proxy_type }

/-- The proxy map of `Pool` (`pool.rs`).  `entries` is the `HashMap`'s value
sequence in iteration order; Rust's `std::collections::HashMap` leaves that
order unspecified (it varies with the per-process hash seed), so every
permutation of the same entries is a reachable representation of the same
logical pool state. -/
structure Pool where
  entries : List Proxy
deriving DecidableEq, Repr

/-- One fold step of Rust's `Iterator::min_by_key` on latency: the accumulator
is replaced only by a strictly smaller key, so the earlier element wins ties. -/
def min_step (acc : Option Proxy) (p : Proxy) : Option Proxy :=
  match acc with
  | none => some p
  | some q => if p.latency < q.latency then some p else some q

/-- Rust's `Iterator::min_by_key` on latency, as the left fold of `min_step`:
the first element of minimum latency in iteration order. -/
def min_by_latency (l : List Proxy) : Option Proxy :=
  l.foldl min_step none

/-- `Pool::get_available`: filter the `Available` entries, take the one of
minimum latency (first in iteration order on ties). -/
def get_available (pool : Pool) : Option Proxy :=
  min_by_latency (pool.entries.filter (fun p => p.status == ProxyStatus.Available))

/-- `Pool::get_all_proxies`: snapshot of every entry. -/
def get_all_proxies (pool : Pool) : List Proxy :=
  pool.entries

/-- The per-proxy body of the `test_all` loop in `pool.rs`: on `Ok` with
`success` the proxy becomes `Available` with the measured latency, on `Ok`
without success it becomes `Failed`, and on `Err e` it becomes `Failed` with a
synthesized failed `TestResult`. -/
def test_step (probe : Proxy → TesterOutcome) (p : Proxy) : Proxy × TestResult :=
  match probe p with
  | .ok r =>
    if r.success then (p.update_status_and_latency .Available r.latency, r)
    else (p.update_status_and_latency .Failed none, r)
  | .err e =>
    (p.update_status .Failed,
     { proxy_id := p.id, success := false, latency := none, error := some e })

/-- `Pool::test_all`, parameterized by the probe outcome per proxy (the source
instantiates it with `Tester::test_proxy`, see `tester_probe`): applies each
result back onto the entry in place and collects `(config, result)` pairs. -/
def test_all (probe : Proxy → TesterOutcome) (pool : Pool) :
    Pool × List (ProxyConfig × TestResult) :=
  (⟨pool.entries.map (fun p => (test_step probe p).1)⟩,
   pool.entries.map (fun p => (proxy_config_of (test_step probe p).1, (test_step probe p).2)))

/-- `Tester::test_proxy` (`tester.rs`): the body unconditionally returns
`Ok` of a successful result carrying the elapsed time (here a parameter,
since wall time is external), after marking the proxy `Available`. -/
def tester_test_proxy (elapsed : Nat) (p : Proxy) : Except String (TestResult × Proxy) :=
  Except.ok
    ({ proxy_id := p.id, success := true, latency := some elapsed, error := none },
     p.update_status_and_latency .Available (some elapsed))

/-- The probe that `Pool::test_all` actually uses: `Tester::test_proxy` on a
clone of the entry, keeping only the `TestResult`. -/
def tester_probe (elapsed : Nat) (p : Proxy) : TesterOutcome :=
  match tester_test_proxy elapsed p with
  | .ok (r, _) => .ok r
  | .error e => .err e

/-- An entry of the rotation pool (`ProxyEntry` in `proxy_pool.rs`);
the `Instant` field `last_check` is omitted. -/
structure ProxyEntry where
  address : String
  latency : Nat
  fail_count : Nat
deriving DecidableEq, Repr

/-- The rotation pool (`ProxyPool` in `proxy_pool.rs`): latency-sorted entry
vector plus the rotation cursor.  Config and file handle are passed explicitly
where needed. -/
structure ProxyPool where
  proxies : List ProxyEntry
  current_index : Nat
deriving DecidableEq, Repr

/-- `ProxyPool::get_current_proxy`: dereference the cursor, `none` when out of
range. -/
def get_current_proxy (pp : ProxyPool) : Option ProxyEntry :=
  pp.proxies.get? pp.current_index

/-- `ProxyPool::next_proxy`: `none` on an empty list (cursor untouched),
otherwise advance the cursor by one modulo the list length and return the new
current entry. -/
def next_proxy (pp : ProxyPool) : Option ProxyEntry × ProxyPool :=
  if pp.proxies.isEmpty then (none, pp)
  else
    let idx := (pp.current_index + 1) % pp.proxies.length
    (pp.proxies.get? idx, { pp with current_index := idx })

/-- Iterated `next_proxy`: the outputs of `n` consecutive calls plus the final
pool state. -/
def next_iter : ProxyPool → Nat → List (Option ProxyEntry) × ProxyPool
  | pp, 0 => ([], pp)
  | pp, n + 1 =>
    let r := next_proxy pp
    let rest := next_iter r.2 n
    (r.1 :: rest.1, rest.2)

/-- The `while i < proxies.len()` loop of `start_health_check`
(`proxy_pool.rs`): one pass over the entries.  `probe k addr` is the outcome of
the `k`-th `test_proxy_health` call of the cycle (`some latency` on success); a
successful entry gets the new latency and `fail_count = 0`, a failed entry gets
`fail_count + 1` and is removed when that reaches `retry_times`. -/
def health_check_pass (probe : Nat → String → Option Nat) (retry_times : Nat) :
    Nat → List ProxyEntry → List ProxyEntry
  | _, [] => []
  | k, e :: rest =>
    match probe k e.address with
    | some lat =>
      { e with latency := lat, fail_count := 0 } ::
        health_check_pass probe retry_times (k + 1) rest
    | none =>
      if e.fail_count + 1 ≥ retry_times then
        health_check_pass probe retry_times (k + 1) rest
      else
        { e with fail_count := e.fail_count + 1 } ::
          health_check_pass probe retry_times (k + 1) rest

/-- Latency order on entries, for `proxies.sort_by(|a, b| a.latency.cmp(&b.latency))`. -/
def latLe (a b : ProxyEntry) : Prop :=
  a.latency ≤ b.latency

instance : DecidableRel latLe := fun a b => Nat.decLe a.latency b.latency

instance : IsTotal ProxyEntry latLe :=
  ⟨fun a b => Nat.le_total a.latency b.latency⟩

instance : IsTrans ProxyEntry latLe :=
  ⟨fun _ _ _ h1 h2 => Nat.le_trans h1 h2⟩

/-- `Vec::sort_by` on latency.  `sort_by` is a stable sort, and any two stable
sorts of the same list under the same total preorder coincide, so the (stable)
insertion sort is an exact model. -/
def sortByLatency (l : List ProxyEntry) : List ProxyEntry :=
  List.insertionSort latLe l

/-- One cycle of the health-check loop after the sleep (`start_health_check`):
the pass over all entries, the re-sort by latency, and the file rewrite —
which the source guards with `if !proxies.is_empty()`, leaving the file as-is
when nothing survived.  The file is modelled as its list of lines. -/
def health_check_cycle (probe : Nat → String → Option Nat) (retry_times : Nat)
    (entries : List ProxyEntry) (file : List String) : List ProxyEntry × List String :=
  let survivors := sortByLatency (health_check_pass probe retry_times 0 entries)
  (survivors, if survivors.isEmpty then file else survivors.map (fun e => e.address))

/-- A health-check cycle acting on the whole `ProxyPool` state: the spawned
task writes only the `proxies` vector and never touches `current_index`. -/
def health_check_tick (probe : Nat → String → Option Nat) (retry_times : Nat)
    (pp : ProxyPool) (file : List String) : ProxyPool × List String :=
  let r := health_check_cycle probe retry_times pp.proxies file
  ({ pp with proxies := r.1 }, r.2)

/-- Rust's `str::trim`: strip leading and trailing whitespace, written over
the character list so it evaluates inside the kernel. -/
def trim_string (s : String) : String :=
  ⟨((s.data.dropWhile Char.isWhitespace).reverse.dropWhile Char.isWhitespace).reverse⟩

/-- The read-and-trim phase of `ProxyPool::load_from_file`: every line is
trimmed and dropped when empty; the survivors (with multiplicity, in file
order) are what the loop feeds into the `HashSet`. -/
def distinct_proxy_lines (lines : List String) : List String :=
  (lines.map trim_string).filter (fun s => s != "")

/-- First occurrences of each distinct string, in order of first appearance
(the sequence the specification's wording describes). -/
def first_occurrences : List String → List String
  | [] => []
  | a :: rest => a :: (first_occurrences rest).filter (fun b => b != a)

/-- The possible iteration sequences of the `HashSet` built by
`load_from_file`: a `HashSet` holds exactly the distinct inserted elements and
iterates them in an unspecified order, so the possible outputs are exactly the
permutations of the distinct trimmed non-blank lines. -/
def possible_hashset_listing (lines : List String) (out : List String) : Prop :=
  out.Perm (first_occurrences (distinct_proxy_lines lines))

/-- Outcome of one `SocksServer::handle_connection` session
(`socks_server.rs`), one constructor per `return` site. -/
inductive SessionOutcome where
  | clientClosed
  | errVersion
  | errClientIo
  | errCommand
  | errAtyp
  | errNoProxy
  | errDial
  | errUpstreamIo
  | errUpstreamHandshake
  | errUpstreamReply
  | errUpstreamAtyp
  | established
deriving DecidableEq, Repr

/-- `read_exact` of `n` bytes from a byte stream: the bytes and the remainder,
or `none` when the stream is too short. -/
def readN (n : Nat) (s : List Nat) : Option (List Nat × List Nat) :=
  if n ≤ s.length then some (s.take n, s.drop n) else none

/-- Result of reading one SOCKS5 address of the given `atyp` from a stream
(steps 3 and 10 of `handle_connection`, which share this shape). -/
inductive ReadTarget where
  | ok (addr : List Nat) (rest : List Nat)
  | short
  | unsupported
deriving DecidableEq, Repr

/-- Read a SOCKS5 address: `atyp = 1` reads 4 octets, `atyp = 3` reads a length
octet then that many octets, `atyp = 4` reads 16 octets; other values are
rejected. -/
def read_target_addr (atyp : Nat) (s : List Nat) : ReadTarget :=
  match atyp with
  | 1 =>
    match readN 4 s with
    | some (a, r) => .ok a r
    | none => .short
  | 3 =>
    match s with
    | len :: r =>
      (match readN len r with
       | some (a, r2) => .ok a r2
       | none => .short)
    | [] => .short
  | 4 =>
    match readN 16 s with
    | some (a, r) => .ok a r
    | none => .short
  | _ => .unsupported

/-- The ten-octet SOCKS5 reply frame with an IPv4 all-zero bound address, as
built at step 11 of `handle_connection` (the source only ever emits code 0). -/
def replyFrame (code : Nat) : List Nat :=
  [5, code, 0, 1, 0, 0, 0, 0, 0, 0]

/-- `SocksServer::handle_connection` (`socks_server.rs`), as a function of the
client's byte stream `cin`, the upstream dial outcome `dialOk`, and the
upstream's byte stream `uin`.  It returns the pool (threaded through unchanged,
as the handler only ever calls the read-only `get_available` /
`get_all_proxies`), the bytes written to the client, and the outcome; the relay
phase itself (step 12) is cut off at `established` since it only copies
payload bytes.  The UTF-8 validation of a domain name is not modelled (its
failure path writes nothing further and leaves the pool alone, like every
other error path). -/
def handle_connection (pool : Pool) (cin : List Nat) (dialOk : Bool) (uin : List Nat) :
    Pool × List Nat × SessionOutcome :=
  match cin with
  | ver :: nmethods :: rest =>
    if ver = 5 then
      match readN nmethods rest with
      | some (_methods, r1) =>
        match r1 with
        | v :: cmd :: _rsv :: atyp :: r2 =>
          if v = 5 ∧ cmd = 1 then
            match read_target_addr atyp r2 with
            | .ok _addr r3 =>
              match readN 2 r3 with
              | some (_port, _r4) =>
                match get_available pool with
                | some _proxy =>
                  if dialOk then
                    match uin with
                    | m0 :: m1 :: u1 =>
                      if m0 = 5 ∧ m1 = 0 then
                        match u1 with
                        | _u0 :: urep :: _ursv :: uatyp :: u2 =>
                          if urep = 0 then
                            match read_target_addr uatyp u2 with
                            | .ok _bnd u3 =>
                              match readN 2 u3 with
                              | some _ => (pool, [5, 0] ++ replyFrame 0, .established)
                              | none => (pool, [5, 0], .errUpstreamIo)
                            | .short => (pool, [5, 0], .errUpstreamIo)
                            | .unsupported => (pool, [5, 0], .errUpstreamAtyp)
                          else (pool, [5, 0], .errUpstreamReply)
                        | _ => (pool, [5, 0], .errUpstreamIo)
                      else (pool, [5, 0], .errUpstreamHandshake)
                    | _ => (pool, [5, 0], .errUpstreamIo)
                  else (pool, [5, 0], .errDial)
                | none => (pool, [5, 0], .errNoProxy)
              | none => (pool, [5, 0], .errClientIo)
            | .short => (pool, [5, 0], .errClientIo)
            | .unsupported => (pool, [5, 0], .errAtyp)
          else (pool, [5, 0], .errCommand)
        | _ => (pool, [5, 0], .errClientIo)
      | none => (pool, [], .errClientIo)
    else (pool, [], .errVersion)
  | _ => (pool, [], .clientClosed)

/-- Modelled from the spec's wording of the health-check step (the claim-side
reference for the refinement in C3): identical to `health_check_pass` except
that an entry is removed exactly when its incremented `fail_count` *equals*
`retry_times` (the code tests `≥`). -/
def health_check_spec (probe : Nat → String → Option Nat) (retry_times : Nat) :
    Nat → List ProxyEntry → List ProxyEntry
  | _, [] => []
  | k, e :: rest =>
    match probe k e.address with
    | some lat =>
      { e with latency := lat, fail_count := 0 } ::
        health_check_spec probe retry_times (k + 1) rest
    | none =>
      if e.fail_count + 1 = retry_times then
        health_check_spec probe retry_times (k + 1) rest
      else
        { e with fail_count := e.fail_count + 1 } ::
          health_check_spec probe retry_times (k + 1) rest

/-- A sample `ProxyInfo` for concrete instances. -/
def sampleInfo (h : String) : ProxyInfo :=
  { host := h, port := 1080, username := none, password := none,
    proxy_type := "socks5", location := none, last_latency := some 10,
    status := .Available }

/-- Concrete pool for C1: two `Available` entries of equal latency; the entry
with the larger id sits earlier in the map's (unspecified) iteration order. -/
def c1proxyB : Proxy :=
  { id := "b", info := sampleInfo "b.example", status := .Available, latency := 10 }

/-- The equal-latency entry with the smaller id, iterated second. -/
def c1proxyA : Proxy :=
  { id := "a", info := sampleInfo "a.example", status := .Available, latency := 10 }

/-- The C1 counterexample pool state. -/
def c1pool : Pool := ⟨[c1proxyB, c1proxyA]⟩

/-- Concrete pool for the C1 witness: distinct latencies 20 and 10. -/
def c1w20 : Proxy :=
  { id := "w20", info := sampleInfo "w20.example", status := .Available, latency := 20 }

/-- The minimum-latency entry of the C1 witness pool. -/
def c1w10 : Proxy :=
  { id := "w10", info := sampleInfo "w10.example", status := .Available, latency := 10 }

/-- The C1 witness pool. -/
def c1wpool : Pool := ⟨[c1w20, c1w10]⟩

/-- Concrete probe for C2's witness: always reports an unsuccessful result. -/
def c2probe (p : Proxy) : TesterOutcome :=
  .ok { proxy_id := p.id, success := false, latency := none, error := some "boom" }

/-- Concrete proxy for C2's witness. -/
def c2proxy : Proxy :=
  { id := "p1", info := sampleInfo "p1.example", status := .Untested, latency := 0 }

/-- Concrete pool for C2's witness. -/
def c2pool : Pool := ⟨[c2proxy]⟩

/-- Concrete probe for C3's witness: position 0 fails, position 1 succeeds
with latency 42, position 2 fails. -/
def c3probe (k : Nat) (_ : String) : Option Nat :=
  if k = 1 then some 42 else none

/-- Concrete entries for C3's witness: fail counts 2, 1 and 0 against
`retry_times = 3`. -/
def c3entries : List ProxyEntry :=
  [⟨"h0:1080", 30, 2⟩, ⟨"h1:1080", 20, 1⟩, ⟨"h2:1080", 10, 0⟩]

/-- A valid SOCKS5 greeting plus CONNECT request to 1.2.3.4:80 (C4). -/
def c4bytes : List Nat :=
  [5, 1, 0, 5, 1, 0, 1, 1, 2, 3, 4, 0, 80]

/-- Concrete rotation pool for C5's witness. -/
def c5pool : ProxyPool := ⟨[⟨"a:1080", 10, 0⟩, ⟨"b:1080", 20, 0⟩], 0⟩

/-- Concrete probe for C6's counterexample: the entry at address `a:1080`
fails, everything else succeeds with latency 10. -/
def c6probe (_ : Nat) (addr : String) : Option Nat :=
  if addr = "a:1080" then none else some 10

/-- Concrete rotation pool for C6: three entries, cursor at 2. -/
def c6pool : ProxyPool := ⟨[⟨"a:1080", 5, 0⟩, ⟨"b:1080", 7, 0⟩, ⟨"c:1080", 9, 0⟩], 2⟩

/-- Concrete probe for C7's counterexample: every probe fails. -/
def c7probe (_ : Nat) (_ : String) : Option Nat := none

/-- The single entry of C7's counterexample pool. -/
def c7entry : ProxyEntry := ⟨"1.2.3.4:1080", 50, 0⟩

/-- Concrete probe for C7's witness: succeeds with latencies 30, 10. -/
def c7wprobe (k : Nat) (_ : String) : Option Nat :=
  if k = 0 then some 30 else some 10

/-- Concrete proxy for C8's witness. -/
def c8proxy : Proxy :=
  { id := "t1", info := sampleInfo "t1.example", status := .Failed, latency := 999 }

/-- Concrete pool for C8's witness. -/
def c8pool : Pool := ⟨[c8proxy]⟩

/-! Helper lemmas. -/

theorem min_step_fold (l : List Proxy) : ∀ q : Proxy,
    ∃ p, l.foldl min_step (some q) = some p ∧ (p = q ∨ p ∈ l) ∧
      p.latency ≤ q.latency ∧ ∀ x ∈ l, p.latency ≤ x.latency := by
  induction l with
  | nil => exact fun q => ⟨q, rfl, Or.inl rfl, Nat.le_refl _, by simp⟩
  | cons x xs ih =>
    intro q
    by_cases h : x.latency < q.latency
    · obtain ⟨p, hp, hmem, hle, hall⟩ := ih x
      refine ⟨p, ?_, ?_, ?_, ?_⟩
      · simpa [List.foldl_cons, min_step, h] using hp
      · rcases hmem with rfl | hm
        · exact Or.inr (List.mem_cons_self _ _)
        · exact Or.inr (List.mem_cons_of_mem _ hm)
      · exact Nat.le_trans hle (Nat.le_of_lt h)
      · intro y hy
        rcases List.mem_cons.1 hy with rfl | hy'
        · exact hle
        · exact hall y hy'
    · obtain ⟨p, hp, hmem, hle, hall⟩ := ih q
      refine ⟨p, ?_, ?_, hle, ?_⟩
      · simpa [List.foldl_cons, min_step, h] using hp
      · rcases hmem with rfl | hm
        · exact Or.inl rfl
        · exact Or.inr (List.mem_cons_of_mem _ hm)
      · intro y hy
        rcases List.mem_cons.1 hy with rfl | hy'
        · exact Nat.le_trans hle (Nat.le_of_not_lt h)
        · exact hall y hy'

theorem min_by_latency_eq_none {l : List Proxy} :
    min_by_latency l = none ↔ l = [] := by
  cases l with
  | nil => simp [min_by_latency]
  | cons x xs =>
    simp only [min_by_latency, List.foldl_cons]
    obtain ⟨p, hp, -, -, -⟩ := min_step_fold xs x
    simp [min_step, hp]

theorem min_by_latency_eq_some {l : List Proxy} {p : Proxy}
    (h : min_by_latency l = some p) :
    p ∈ l ∧ ∀ x ∈ l, p.latency ≤ x.latency := by
  cases l with
  | nil => simp [min_by_latency] at h
  | cons x xs =>
    simp only [min_by_latency, List.foldl_cons] at h
    obtain ⟨p', hp', hmem, hle, hall⟩ := min_step_fold xs x
    rw [show min_step none x = some x from rfl] at h
    rw [hp'] at h
    cases h
    constructor
    · rcases hmem with rfl | hm
      · exact List.mem_cons_self _ _
      · exact List.mem_cons_of_mem _ hm
    · intro y hy
      rcases List.mem_cons.1 hy with rfl | hy'
      · exact hle
      · exact hall y hy'

/-! Claim theorems. -/

/-- C1 (counterexample): in the pool `c1pool` the entries `c1proxyB` (id "b")
and `c1proxyA` (id "a") are both `Available` with equal latency 10, yet
`get_available` returns the id-"b" entry — the one earlier in the map's
unspecified iteration order — not the one with the smaller entry-id, refuting
the claimed tie-break. -/
theorem get_available_tiebreak_counterexample :
    get_available c1pool = some c1proxyB ∧
    c1proxyA ∈ c1pool.entries ∧ c1proxyA.status = ProxyStatus.Available ∧
    c1proxyA.latency = c1proxyB.latency ∧ c1proxyA.id < c1proxyB.id := by
  refine ⟨by decide, by decide, by decide, by decide, ?_⟩
  rw [String.lt_iff_toList_lt]
  decide

/-- C1 (amended): `get_available()` returns nothing exactly when no entry is
`Available`, and any entry it returns is an `Available` entry of the pool
whose latency is less than or equal to the latency of every other `Available`
entry; ties are broken by the map's unspecified iteration order (first
encountered wins), not by smaller entry-id. -/
theorem get_available_min_latency (pool : Pool) :
    (get_available pool = none ↔ ∀ p ∈ pool.entries, p.status ≠ ProxyStatus.Available) ∧
    ∀ p, get_available pool = some p →
      p ∈ pool.entries ∧ p.status = ProxyStatus.Available ∧
      ∀ q ∈ pool.entries, q.status = ProxyStatus.Available → p.latency ≤ q.latency := by
  constructor
  · rw [get_available, min_by_latency_eq_none, List.filter_eq_nil_iff]
    simp
  · intro p hp
    rw [get_available] at hp
    obtain ⟨hmem, hall⟩ := min_by_latency_eq_some hp
    have h1 := List.mem_filter.1 hmem
    refine ⟨h1.1, by simpa using h1.2, ?_⟩
    intro q hq hqa
    exact hall q (List.mem_filter.2 ⟨hq, by simp [hqa]⟩)

/-- C1 (witness): the amended theorem applied to the concrete pool `c1wpool`,
whose minimum-latency `Available` entry is `c1w10`. -/
theorem get_available_min_latency_witness :
    c1w10 ∈ c1wpool.entries ∧ c1w10.status = ProxyStatus.Available ∧
    c1w10.latency ≤ c1w20.latency := by
  obtain ⟨hmem, hst, hall⟩ :=
    (get_available_min_latency c1wpool).2 c1w10 (by decide)
  exact ⟨hmem, hst, hall c1w20 (by decide) (by decide)⟩

/-- C9: a session, whatever its input bytes, dial outcome and upstream bytes —
including upstream dial failure, upstream handshake rejection, upstream request
rejection and every other error path — returns the proxy pool unchanged: the
handler only ever reads the pool. -/
theorem handle_connection_pool_frame (pool : Pool) (cin : List Nat)
    (dialOk : Bool) (uin : List Nat) :
    (handle_connection pool cin dialOk uin).1 = pool := by
  unfold handle_connection
  repeat' split
  all_goals rfl

/-- C4 (counterexample): with an empty pool (`get_available` returns nothing)
and a well-formed greeting plus CONNECT request `c4bytes`, the session ends
with the no-proxy error having written exactly the method-selection bytes
`[5, 0]` to the client — no ten-octet reply frame, in particular none with
reply code 4, is ever written. -/
theorem no_reply_on_empty_pool_counterexample :
    get_available (Pool.mk []) = none ∧
    handle_connection (Pool.mk []) c4bytes true [] =
      (Pool.mk [], [5, 0], SessionOutcome.errNoProxy) ∧
    (replyFrame 4).length = 10 := by
  refine ⟨by decide, by decide, by decide⟩

/-- C4 (amended): whenever the greeting and CONNECT request parse but
`pool.get_available()` returns nothing, the handler terminates the session
with an error *without* writing any SOCKS5 reply: the client has received at
most the method-selection bytes `[5, 0]`, and the session never reaches the
established state. -/
theorem no_proxy_writes_no_reply (pool : Pool) (h : get_available pool = none)
    (cin : List Nat) (dialOk : Bool) (uin : List Nat) :
    ((handle_connection pool cin dialOk uin).2.1 = [] ∨
     (handle_connection pool cin dialOk uin).2.1 = [5, 0]) ∧
    (handle_connection pool cin dialOk uin).2.2 ≠ SessionOutcome.established := by
  unfold handle_connection
  repeat' split
  all_goals simp_all

/-- C4 (witness): the amended theorem at the empty pool and the concrete
request `c4bytes`. -/
theorem no_proxy_writes_no_reply_witness :
    ((handle_connection (Pool.mk []) c4bytes true []).2.1 = [] ∨
     (handle_connection (Pool.mk []) c4bytes true []).2.1 = [5, 0]) ∧
    (handle_connection (Pool.mk []) c4bytes true []).2.2 ≠ SessionOutcome.established :=
  no_proxy_writes_no_reply (Pool.mk []) (by decide) c4bytes true []

theorem update_status_and_latency_id (p : Proxy) (s : ProxyStatus) (lat : Option Nat) :
    (p.update_status_and_latency s lat).id = p.id := by
  cases lat <;> rfl

theorem update_status_and_latency_status (p : Proxy) (s : ProxyStatus) (lat : Option Nat) :
    (p.update_status_and_latency s lat).status = s := by
  cases lat <;> rfl

theorem update_status_and_latency_latency (p : Proxy) (s : ProxyStatus) (l : Nat) :
    (p.update_status_and_latency s (some l)).latency = l := rfl

theorem test_step_id (probe : Proxy → TesterOutcome) (p : Proxy) :
    (test_step probe p).1.id = p.id := by
  unfold test_step
  cases probe p with
  | ok r =>
    by_cases hs : r.success <;>
      simp [hs, update_status_and_latency_id]
  | err e => rfl

/-- C2: `test_all()` neither adds nor removes entries — the id sequence of the
pool is unchanged — and each probe result is applied onto the probed entry: a
successful result makes it `Available` with the result's latency, a failed
`Ok` result or an `Err` makes it `Failed`. -/
theorem test_all_applies_results (probe : Proxy → TesterOutcome) (pool : Pool) :
    ((test_all probe pool).1.entries.map Proxy.id = pool.entries.map Proxy.id) ∧
    ∀ p ∈ pool.entries,
      (test_step probe p).1 ∈ (test_all probe pool).1.entries ∧
      (test_step probe p).1.id = p.id ∧
      (∀ r, probe p = .ok r →
        (r.success = true →
          (test_step probe p).1.status = ProxyStatus.Available ∧
          ∀ l, r.latency = some l → (test_step probe p).1.latency = l) ∧
        (r.success = false → (test_step probe p).1.status = ProxyStatus.Failed)) ∧
      (∀ e, probe p = .err e → (test_step probe p).1.status = ProxyStatus.Failed) := by
  refine ⟨?_, ?_⟩
  · show (pool.entries.map (fun p => (test_step probe p).1)).map Proxy.id = _
    rw [List.map_map]
    exact List.map_congr_left fun p _ => test_step_id probe p
  · intro p hp
    refine ⟨List.mem_map_of_mem _ hp, test_step_id probe p, ?_, ?_⟩
    · intro r hr
      constructor
      · intro hs
        constructor
        · simp [test_step, hr, hs, update_status_and_latency_status]
        · intro l hl
          simp [test_step, hr, hs, hl, update_status_and_latency_latency]
      · intro hs
        simp [test_step, hr, hs, update_status_and_latency_status]
    · intro e he
      simp [test_step, he, Proxy.update_status]

/-- C2 (witness): the theorem at the concrete failing probe `c2probe` and the
one-entry pool `c2pool`: ids are preserved and the probed entry is `Failed`. -/
theorem test_all_applies_results_witness :
    ((test_all c2probe c2pool).1.entries.map Proxy.id = c2pool.entries.map Proxy.id) ∧
    (test_step c2probe c2proxy).1.status = ProxyStatus.Failed := by
  have h := test_all_applies_results c2probe c2pool
  refine ⟨h.1, ?_⟩
  exact (((h.2 c2proxy (by decide)).2.2.1
    { proxy_id := c2proxy.id, success := false, latency := none, error := some "boom" }
    rfl).2 rfl)

/-- C8: `Tester::test_proxy` never reports failure — for every proxy and
elapsed time it returns `Ok` with `success = true`, the elapsed latency and no
error, marking the proxy `Available` — and therefore every entry of the pool
after a `test_all` over this tester is `Available`, regardless of actual
reachability. -/
theorem tester_always_succeeds (elapsed : Nat) (p : Proxy) (pool : Pool)
    (q : Proxy) (hq : q ∈ (test_all (tester_probe elapsed) pool).1.entries) :
    tester_test_proxy elapsed p =
      Except.ok
        ({ proxy_id := p.id, success := true, latency := some elapsed, error := none },
         p.update_status_and_latency .Available (some elapsed)) ∧
    (p.update_status_and_latency .Available (some elapsed)).status = ProxyStatus.Available ∧
    q.status = ProxyStatus.Available := by
  refine ⟨rfl, update_status_and_latency_status p _ _, ?_⟩
  obtain ⟨x, -, rfl⟩ := List.mem_map.1 hq
  show (test_step (tester_probe elapsed) x).1.status = ProxyStatus.Available
  simp [test_step, tester_probe, tester_test_proxy, update_status_and_latency_status]

/-- C8 (witness): the theorem at `elapsed = 100` on the concrete one-entry pool
`c8pool` whose entry starts out `Failed`. -/
theorem tester_always_succeeds_witness :
    tester_test_proxy 100 c8proxy =
      Except.ok
        ({ proxy_id := c8proxy.id, success := true, latency := some 100, error := none },
         c8proxy.update_status_and_latency .Available (some 100)) ∧
    (c8proxy.update_status_and_latency .Available (some 100)).status = ProxyStatus.Available ∧
    (test_step (tester_probe 100) c8proxy).1.status = ProxyStatus.Available :=
  tester_always_succeeds 100 c8proxy c8pool
    (test_step (tester_probe 100) c8proxy).1 (by decide)

theorem health_check_pass_eq_spec (probe : Nat → String → Option Nat)
    (retry_times : Nat) (h1 : 0 < retry_times) :
    ∀ (k : Nat) (l : List ProxyEntry), (∀ e ∈ l, e.fail_count < retry_times) →
      health_check_pass probe retry_times k l = health_check_spec probe retry_times k l ∧
      ∀ e ∈ health_check_pass probe retry_times k l, e.fail_count < retry_times := by
  intro k l
  induction l generalizing k with
  | nil => intro _; exact ⟨rfl, by simp [health_check_pass]⟩
  | cons e rest ih =>
    intro hinv
    have he := hinv e (List.mem_cons_self _ _)
    have hrest : ∀ x ∈ rest, x.fail_count < retry_times :=
      fun x hx => hinv x (List.mem_cons_of_mem _ hx)
    obtain ⟨ihEq, ihInv⟩ := ih (k + 1) hrest
    unfold health_check_pass health_check_spec
    cases hp : probe k e.address with
    | some lat =>
      refine ⟨by rw [ihEq], ?_⟩
      intro x hx
      rcases List.mem_cons.1 hx with rfl | hx'
      · exact h1
      · exact ihInv x hx'
    | none =>
      by_cases hge : e.fail_count + 1 ≥ retry_times
      · have heq : e.fail_count + 1 = retry_times := by omega
        rw [if_pos hge, if_pos heq]
        exact ⟨ihEq, ihInv⟩
      · have hne : ¬(e.fail_count + 1 = retry_times) := by omega
        rw [if_neg hge, if_neg hne]
        refine ⟨by rw [ihEq], ?_⟩
        intro x hx
        rcases List.mem_cons.1 hx with rfl | hx'
        · simpa using by omega
        · exact ihInv x hx'

/-- C3: under a positive `retry_times` and the inductively maintained
invariant that every entry enters the cycle with `fail_count < retry_times`,
the health-check pass behaves exactly as specified — a successful probe sets
the new latency and resets `fail_count` to 0, a failed probe increments
`fail_count`, and the entry is removed precisely when the incremented count
reaches `retry_times` (`health_check_spec`) — and every entry remaining after
the pass, and after the full cycle, again has `fail_count < retry_times`. -/
theorem health_check_eviction (probe : Nat → String → Option Nat)
    (retry_times : Nat) (h1 : 0 < retry_times) :
    (∀ (k : Nat) (l : List ProxyEntry), (∀ e ∈ l, e.fail_count < retry_times) →
      health_check_pass probe retry_times k l = health_check_spec probe retry_times k l ∧
      ∀ e ∈ health_check_pass probe retry_times k l, e.fail_count < retry_times) ∧
    ∀ (l : List ProxyEntry) (file : List String), (∀ e ∈ l, e.fail_count < retry_times) →
      ∀ e ∈ (health_check_cycle probe retry_times l file).1, e.fail_count < retry_times := by
  refine ⟨health_check_pass_eq_spec probe retry_times h1, ?_⟩
  intro l file hinv e he
  have hmem : e ∈ health_check_pass probe retry_times 0 l := by
    have hperm := List.perm_insertionSort latLe (health_check_pass probe retry_times 0 l)
    exact hperm.mem_iff.1 he
  exact ((health_check_pass_eq_spec probe retry_times h1) 0 l hinv).2 e hmem

/-- C3 (witness): the theorem at `retry_times = 3` on the concrete entries
`c3entries` (fail counts 2, 1, 0) and probe `c3probe`: the pass agrees with
the specified behavior, and the surviving incremented entry keeps
`fail_count = 1 < 3`. -/
theorem health_check_eviction_witness :
    health_check_pass c3probe 3 0 c3entries = health_check_spec c3probe 3 0 c3entries ∧
    (⟨"h2:1080", 10, 1⟩ : ProxyEntry).fail_count < 3 := by
  have h := health_check_eviction c3probe 3 (by decide)
  refine ⟨(h.1 0 c3entries (by decide)).1, ?_⟩
  exact h.2 c3entries [] (by decide) ⟨"h2:1080", 10, 1⟩ (by decide)

/-- C7 (counterexample): with `retry_times = 1`, an all-failing probe evicts
the single entry `c7entry`; no entries survive, and the cycle leaves the
proxy file untouched — the evicted address `1.2.3.4:1080` is still in the
file, contradicting the claim that the file then contains exactly the (zero)
survivors. -/
theorem file_not_rewritten_counterexample :
    health_check_cycle c7probe 1 [c7entry] ["1.2.3.4:1080"] =
      ([], ["1.2.3.4:1080"]) := by
  decide

/-- C7 (amended): after a health-check cycle the surviving entries are exactly
the survivors of the pass, sorted by ascending latency, and the proxy file is
rewritten to exactly their addresses in that order — but only when at least one
entry survives; when none survive, the rewrite is skipped and the file keeps
its previous contents. -/
theorem health_check_file_persistence (probe : Nat → String → Option Nat)
    (retry_times : Nat) (entries : List ProxyEntry) (file : List String) :
    ((health_check_cycle probe retry_times entries file).1 = [] →
      (health_check_cycle probe retry_times entries file).2 = file) ∧
    ((health_check_cycle probe retry_times entries file).1 ≠ [] →
      (health_check_cycle probe retry_times entries file).2 =
        ((health_check_cycle probe retry_times entries file).1).map (fun e => e.address)) ∧
    List.Sorted latLe (health_check_cycle probe retry_times entries file).1 ∧
    ((health_check_cycle probe retry_times entries file).1).Perm
      (health_check_pass probe retry_times 0 entries) := by
  refine ⟨?_, ?_, ?_, ?_⟩
  · intro h
    simp only [health_check_cycle] at h ⊢
    simp [List.isEmpty_iff, h]
  · intro h
    simp only [health_check_cycle] at h ⊢
    rw [if_neg (by simpa [List.isEmpty_iff] using h)]
  · exact List.sorted_insertionSort latLe _
  · exact List.perm_insertionSort latLe _

/-- C7 (witness): the amended theorem on the C3 entries with the succeeding
probe `c7wprobe`: two entries survive, the file holds exactly their addresses
in ascending-latency order, and the result is sorted. -/
theorem health_check_file_persistence_witness :
    (health_check_cycle c7wprobe 3 c3entries ["old"]).2 =
      ((health_check_cycle c7wprobe 3 c3entries ["old"]).1).map (fun e => e.address) ∧
    List.Sorted latLe (health_check_cycle c7wprobe 3 c3entries ["old"]).1 := by
  have h := health_check_file_persistence c7wprobe 3 c3entries ["old"]
  exact ⟨h.2.1 (by decide), h.2.2.1⟩

theorem next_proxy_nonempty (pp : ProxyPool) (h : pp.proxies ≠ []) :
    next_proxy pp =
      (pp.proxies.get? ((pp.current_index + 1) % pp.proxies.length),
       { pp with current_index := (pp.current_index + 1) % pp.proxies.length }) := by
  simp [next_proxy, List.isEmpty_iff, h]

theorem next_iter_outputs : ∀ (n : Nat) (pp : ProxyPool), pp.proxies ≠ [] →
    (next_iter pp n).1 = (List.range n).map
      (fun j => pp.proxies.get? ((pp.current_index + 1 + j) % pp.proxies.length)) := by
  intro n
  induction n with
  | zero => intro pp _; simp [next_iter]
  | succ m ih =>
    intro pp h
    have hstep := next_proxy_nonempty pp h
    simp only [next_iter, hstep]
    rw [ih { pp with current_index := (pp.current_index + 1) % pp.proxies.length } h]
    rw [List.range_succ_eq_map, List.map_cons, List.map_map]
    congr 1
    apply List.map_congr_left
    intro j _
    show pp.proxies.get? (((pp.current_index + 1) % pp.proxies.length + 1 + j) % pp.proxies.length) =
      pp.proxies.get? ((pp.current_index + 1 + Nat.succ j) % pp.proxies.length)
    congr 1
    rw [Nat.add_assoc, Nat.mod_add_mod]
    congr 1
    omega

theorem index_cycle_perm (K r : Nat) (hK : 0 < K) :
    ((List.range K).map (fun j => (r + j) % K)).Perm (List.range K) := by
  have hnodup : ((List.range K).map (fun j => (r + j) % K)).Nodup := by
    apply List.Nodup.map_on ?_ (List.nodup_range K)
    intro i hi j hj hij
    have hiK := List.mem_range.1 hi
    have hjK := List.mem_range.1 hj
    have h2 : i % K = j % K := Nat.ModEq.add_left_cancel' r hij
    rwa [Nat.mod_eq_of_lt hiK, Nat.mod_eq_of_lt hjK] at h2
  refine (List.perm_ext_iff_of_nodup hnodup (List.nodup_range K)).2 ?_
  intro a
  constructor
  · intro ha
    obtain ⟨j, -, rfl⟩ := List.mem_map.1 ha
    exact List.mem_range.2 (Nat.mod_lt _ hK)
  · intro ha
    have haK := List.mem_range.1 ha
    have hr : r % K < K := Nat.mod_lt _ hK
    refine List.mem_map.2 ⟨(a + K - r % K) % K, List.mem_range.2 (Nat.mod_lt _ hK), ?_⟩
    have h1 : (r + (a + K - r % K) % K) % K = (r % K + (a + K - r % K) % K) % K := by
      rw [Nat.mod_add_mod]
    rw [h1, Nat.add_mod_mod]
    have h2 : r % K + (a + K - r % K) = a + K := by omega
    rw [h2, Nat.add_mod_right, Nat.mod_eq_of_lt haK]

theorem map_get?_range (l : List ProxyEntry) :
    (List.range l.length).map (fun i => l.get? i) = l.map some := by
  induction l with
  | nil => rfl
  | cons x xs ih =>
    rw [List.length_cons, List.range_succ_eq_map, List.map_cons, List.map_map, List.map_cons]
    congr 1

/-- C5: on an empty list `next()` returns nothing with the cursor untouched;
on a non-empty list of size K it leaves the entries alone, advances the cursor
by one modulo K, returns the entry now under the cursor (always some entry),
and K consecutive calls return every entry exactly once — a round robin with
period K, which for K = 1 returns that same entry every time. -/
theorem next_proxy_round_robin (pp : ProxyPool) :
    (pp.proxies = [] → next_proxy pp = (none, pp)) ∧
    (pp.proxies ≠ [] →
      (next_proxy pp).2.proxies = pp.proxies ∧
      (next_proxy pp).2.current_index = (pp.current_index + 1) % pp.proxies.length ∧
      (next_proxy pp).1 = pp.proxies.get? ((pp.current_index + 1) % pp.proxies.length) ∧
      (next_proxy pp).1 ≠ none ∧
      ((next_iter pp pp.proxies.length).1).Perm (pp.proxies.map some)) := by
  constructor
  · intro h
    simp [next_proxy, h]
  · intro h
    have hK : 0 < pp.proxies.length := List.length_pos.2 h
    have hstep := next_proxy_nonempty pp h
    refine ⟨by rw [hstep], by rw [hstep], by rw [hstep], ?_, ?_⟩
    · rw [hstep]
      have hlt : (pp.current_index + 1) % pp.proxies.length < pp.proxies.length :=
        Nat.mod_lt _ hK
      rw [List.get?_eq_get hlt]
      simp
    · rw [next_iter_outputs pp.proxies.length pp h]
      have hmm : (List.range pp.proxies.length).map
          (fun j => pp.proxies.get? ((pp.current_index + 1 + j) % pp.proxies.length)) =
          ((List.range pp.proxies.length).map
            (fun j => (pp.current_index + 1 + j) % pp.proxies.length)).map
            (fun i => pp.proxies.get? i) := by
        rw [List.map_map]
        rfl
      rw [hmm, ← map_get?_range pp.proxies]
      exact (index_cycle_perm pp.proxies.length (pp.current_index + 1) hK).map _

/-- C5 (witness): the theorem at the concrete two-entry pool `c5pool`: the
cursor advances modulo 2 and two consecutive calls return each entry once. -/
theorem next_proxy_round_robin_witness :
    (next_proxy c5pool).2.current_index = (c5pool.current_index + 1) % c5pool.proxies.length ∧
    ((next_iter c5pool c5pool.proxies.length).1).Perm (c5pool.proxies.map some) := by
  have h := (next_proxy_round_robin c5pool).2 (by decide)
  exact ⟨h.2.1, h.2.2.2.2⟩

/-- C6 (counterexample): with `retry_times = 1` and probe `c6probe`, a
health-check cycle on `c6pool` (three entries, cursor at 2) evicts the first
entry; the cursor is not reset, so it now lies outside the two surviving
entries and `get_current_proxy` returns nothing even though the list is
non-empty — refuting the claim that the cursor is kept in bounds or reset. -/
theorem cursor_out_of_range_counterexample :
    (health_check_tick c6probe 1 c6pool []).1.proxies ≠ [] ∧
    get_current_proxy (health_check_tick c6probe 1 c6pool []).1 = none := by
  constructor
  · decide
  · decide

/-- C6 (amended): a health-check cycle never touches the rotation cursor, so
after an eviction the cursor may lie outside the bounds of the entry list;
`get_current_proxy` returns nothing exactly when the cursor is out of range
(even on a non-empty list), and the cursor re-enters bounds only through
`next_proxy`, whose modulo step always yields an entry on a non-empty list. -/
theorem cursor_unchanged_by_health_check (probe : Nat → String → Option Nat)
    (retry_times : Nat) (pp : ProxyPool) (file : List String) :
    (health_check_tick probe retry_times pp file).1.current_index = pp.current_index ∧
    (get_current_proxy pp = none ↔ pp.proxies.length ≤ pp.current_index) ∧
    (pp.proxies ≠ [] → (next_proxy pp).1 ≠ none) := by
  refine ⟨rfl, ?_, ?_⟩
  · exact List.get?_eq_none
  · intro h
    have hK : 0 < pp.proxies.length := List.length_pos.2 h
    rw [next_proxy_nonempty pp h]
    have hlt : (pp.current_index + 1) % pp.proxies.length < pp.proxies.length :=
      Nat.mod_lt _ hK
    rw [List.get?_eq_get hlt]
    simp

/-- C6 (witness): the amended theorem at probe `c6probe` and pool `c6pool`:
the tick preserves the cursor, the out-of-range characterization holds, and
`next_proxy` on the non-empty pool yields an entry. -/
theorem cursor_unchanged_by_health_check_witness :
    (health_check_tick c6probe 1 c6pool []).1.current_index = c6pool.current_index ∧
    (get_current_proxy c6pool = none ↔ c6pool.proxies.length ≤ c6pool.current_index) ∧
    (next_proxy c6pool).1 ≠ none := by
  have h := cursor_unchanged_by_health_check c6probe 1 c6pool []
  exact ⟨h.1, h.2.1, h.2.2 (by decide)⟩

theorem first_occurrences_mem (a : String) :
    ∀ l : List String, a ∈ first_occurrences l ↔ a ∈ l := by
  intro l
  induction l with
  | nil => simp [first_occurrences]
  | cons b rest ih =>
    by_cases hab : a = b
    · subst hab
      simp [first_occurrences]
    · simp only [first_occurrences, List.mem_cons, List.mem_filter, bne_iff_ne, ih]
      constructor
      · rintro (rfl | ⟨hm, -⟩)
        · exact Or.inl rfl
        · exact Or.inr hm
      · rintro (rfl | hm)
        · exact Or.inl rfl
        · exact Or.inr ⟨hm, hab⟩

theorem first_occurrences_nodup : ∀ l : List String, (first_occurrences l).Nodup := by
  intro l
  induction l with
  | nil => simp [first_occurrences]
  | cons b rest ih =>
    rw [first_occurrences, List.nodup_cons]
    constructor
    · intro hmem
      have := (List.mem_filter.1 hmem).2
      simp at this
    · exact ih.filter _

/-- C10 (counterexample): for the two-line file `["a", "b"]`, the listing
`["b", "a"]` is a possible `HashSet` iteration (it is a permutation of the
distinct trimmed non-blank lines), yet it is not the first-occurrence
sequence `["a", "b"]` — so the order of the produced entries is not the
first-seen order the claim states. -/
theorem load_order_counterexample :
    possible_hashset_listing ["a", "b"] ["b", "a"] ∧
    ["b", "a"] ≠ first_occurrences (distinct_proxy_lines ["a", "b"]) := by
  constructor
  · show List.Perm _ _
    have h : first_occurrences (distinct_proxy_lines ["a", "b"]) = ["a", "b"] := by decide
    rw [h]
    exact List.Perm.swap _ _ _
  · decide

/-- C10 (amended): loading the upstream list skips blank lines (after
trimming) and deduplicates the remaining `host:port` strings, but the order of
the distinct entries is unspecified hash-set iteration order: any listing the
load can produce has no duplicates and contains exactly the distinct trimmed
non-blank lines, with no guarantee of first-seen order. -/
theorem load_dedup_set (lines : List String) (out : List String)
    (h : possible_hashset_listing lines out) :
    out.Nodup ∧ ∀ a, a ∈ out ↔ a ∈ distinct_proxy_lines lines := by
  constructor
  · exact h.symm.nodup (first_occurrences_nodup _)
  · intro a
    rw [h.mem_iff, first_occurrences_mem]

/-- C10 (witness): the amended theorem at the concrete file `["a", "b"]` and
listing `["b", "a"]`. -/
theorem load_dedup_set_witness : (["b", "a"] : List String).Nodup := by
  have hperm : possible_hashset_listing ["a", "b"] ["b", "a"] := by
    show List.Perm _ _
    have h : first_occurrences (distinct_proxy_lines ["a", "b"]) = ["a", "b"] := by decide
    rw [h]
    exact List.Perm.swap _ _ _
  exact (load_dedup_set ["a", "b"] ["b", "a"] hperm).1

end LokiPool
